import Mathlib

/-! Low Voltage Cutoff firmware (`lvco/src/1s-lvco.c`)

A shallow embedding of the firmware's two routines, `init` and the watchdog
interrupt handler `ISR(WDT_vect)`, as functions on the I/O register file of the
ATtiny13, followed by the properties of the sense-decide-actuate loop.

Registers are `volatile uint8_t` cells.  A C expression over registers is
computed on natural numbers (the integer promotion to `int`) and truncated
modulo `2 ^ 8` when it is stored back.
-/

namespace Lvco

/-! ## Machine integers -/

/-- Value held by an 8-bit I/O register (`volatile uint8_t`). -/
abbrev Byte := Fin 256

/-- Store of an `int` expression into an 8-bit register: truncation modulo `2 ^ 8`. -/
def u8 (x : Nat) : Byte := ⟨x % 256, Nat.mod_lt x (by decide)⟩

/-- C's `~x` on the 16-bit `int` of the AVR, as its two's-complement bit pattern. -/
def compl (x : Nat) : Nat := 65535 - x % 65536

/-! ## Device constants

`avr/io.h` is not part of the sources.  The firmware names the ATtiny13 (its
datasheet is cited at lines 87-88 and 122 of the source), whose device header
gives the bit numbers below. -/

/-- Modelled from the spec: `PB4` of `avr/io.h`, port B pin 4. -/
def PB4 : Nat := 4

/-- Source line 49: `#define SWITCH_OUT PB4`. -/
def SWITCH_OUT : Nat := PB4

/-- Modelled from the spec: `ACME` (analog comparator multiplexer enable), bit 6 of `ADCSRB`. -/
def ACME : Nat := 6

/-- Modelled from the spec: `ACD` (analog comparator disable), bit 7 of `ACSR`. -/
def ACD : Nat := 7

/-- Modelled from the spec: `ACBG` (bandgap select), bit 6 of `ACSR`. -/
def ACBG : Nat := 6

/-- Modelled from the spec: `ACO` (analog comparator output), bit 5 of `ACSR`. -/
def ACO : Nat := 5

/-- Modelled from the spec: `ACIE` (analog comparator interrupt enable), bit 3 of `ACSR`. -/
def ACIE : Nat := 3

/-- Modelled from the spec: `ACIS1` (comparator interrupt mode select), bit 1 of `ACSR`. -/
def ACIS1 : Nat := 1

/-- Modelled from the spec: `ACIS0` (comparator interrupt mode select), bit 0 of `ACSR`. -/
def ACIS0 : Nat := 0

/-- Modelled from the spec: `AIN1D` (AIN1 digital input disable), bit 1 of `DIDR0`. -/
def AIN1D : Nat := 1

/-- Modelled from the spec: `AIN0D` (AIN0 digital input disable), bit 0 of `DIDR0`. -/
def AIN0D : Nat := 0

/-- Modelled from the spec: `WDRF` (watchdog reset flag), bit 3 of `MCUSR`. -/
def WDRF : Nat := 3

/-- Modelled from the spec: `WDTIE` (watchdog timeout interrupt enable), bit 6 of `WDTCR`. -/
def WDTIE : Nat := 6

/-- Modelled from the spec: `WDP3` (watchdog prescaler bit 3), bit 5 of `WDTCR`. -/
def WDP3 : Nat := 5

/-- Modelled from the spec: `WDCE` (watchdog change enable), bit 4 of `WDTCR`. -/
def WDCE : Nat := 4

/-- Modelled from the spec: `WDE` (watchdog system-reset enable), bit 3 of `WDTCR`. -/
def WDE : Nat := 3

/-- Modelled from the spec: `WDP2` (watchdog prescaler bit 2), bit 2 of `WDTCR`. -/
def WDP2 : Nat := 2

/-- Modelled from the spec: `WDP1` (watchdog prescaler bit 1), bit 1 of `WDTCR`. -/
def WDP1 : Nat := 1

/-- Modelled from the spec: `WDP0` (watchdog prescaler bit 0), bit 0 of `WDTCR`. -/
def WDP0 : Nat := 0

/-- Modelled from the spec: `SE` (sleep enable), bit 5 of `MCUCR`. -/
def SE : Nat := 5

/-- Modelled from the spec: `SM1` (sleep mode select bit 1), bit 4 of `MCUCR`. -/
def SM1 : Nat := 4

/-- Modelled from the spec: `SM0` (sleep mode select bit 0), bit 3 of `MCUCR`. -/
def SM0 : Nat := 3

/-- Modelled from the spec: `SLEEP_MODE_PWR_DOWN` of `avr/sleep.h`, the mask `_BV(SM1)`
(sleep-mode bits `SM1:SM0 = 10`, the deepest sleep mode of the device). -/
def SLEEP_MODE_PWR_DOWN : Nat := 1 <<< SM1

/-- Modelled from the spec: `ADIE` (ADC interrupt enable), bit 3 of `ADCSRA`. -/
def ADIE : Nat := 3

/-- Modelled from the spec: the global interrupt flag `I`, bit 7 of `SREG`. -/
def SREG_I : Nat := 7

/-! ## Register file -/

/-- The I/O registers the firmware reads or writes, the registers that hold the
device's remaining interrupt-enable bits (`GIMSK`, `TIMSK0`, `EECR`, which the
firmware never touches), and the watchdog's internal counter. -/
structure Regs where
  MCUCR : Byte
  TCCR0A : Byte
  TCCR0B : Byte
  ADCSRA : Byte
  ADCSRB : Byte
  ACSR : Byte
  DIDR0 : Byte
  DDRB : Byte
  PORTB : Byte
  MCUSR : Byte
  WDTCR : Byte
  SREG : Byte
  GIMSK : Byte
  TIMSK0 : Byte
  EECR : Byte
  wdtCounter : Nat
  deriving DecidableEq

/-- Bit `k` of a register. -/
def bitOf (r : Byte) (k : Nat) : Bool := r.val.testBit k

/-! ## Library routines used by the firmware -/

/-- Modelled from the spec: `sleep_enable()` of `avr/sleep.h`,
`MCUCR |= _BV(SE)`. -/
def sleep_enable (s : Regs) : Regs :=
  { s with MCUCR := u8 (s.MCUCR.val ||| (1 <<< SE)) }

/-- Modelled from the spec: `set_sleep_mode(mode)` of `avr/sleep.h`,
`MCUCR = (MCUCR & ~(_BV(SM0) | _BV(SM1))) | mode`. -/
def set_sleep_mode (mode : Nat) (s : Regs) : Regs :=
  { s with MCUCR := u8 ((s.MCUCR.val &&& compl ((1 <<< SM0) ||| (1 <<< SM1))) ||| mode) }

/-- Modelled from the spec: `sei()` of `avr/interrupt.h`, sets the global interrupt flag. -/
def sei (s : Regs) : Regs :=
  { s with SREG := u8 (s.SREG.val ||| (1 <<< SREG_I)) }

/-- Modelled from the spec: `wdt_reset()` of `avr/wdt.h` (the `wdr` instruction),
restarts the watchdog counter. -/
def wdt_reset (s : Regs) : Regs :=
  { s with wdtCounter := 0 }

/-! ## The firmware -/

/-- Source lines 54-96: `void init(void)`. -/
def init (s : Regs) : Regs :=
  -- configure sleep mode
  let s := sleep_enable s
  let s := set_sleep_mode SLEEP_MODE_PWR_DOWN s
  -- disable peripherals
  let s := { s with TCCR0A := u8 0 }
  let s := { s with TCCR0B := u8 0 }
  let s := { s with ADCSRA := u8 0 }
  -- prepare the analog comparator
  let s := { s with ADCSRB := u8 (s.ADCSRB.val &&& compl (1 <<< ACME)) }
  let s := { s with ACSR := u8 ((0 <<< ACD) ||| (1 <<< ACBG) ||| (0 <<< ACIE) |||
                                 (0 <<< ACIS1) ||| (0 <<< ACIS0)) }
  let s := { s with DIDR0 := u8 ((1 <<< AIN1D) ||| (1 <<< AIN0D)) }
  -- prepare switch output pin
  let s := { s with DDRB := u8 (s.DDRB.val ||| (1 <<< SWITCH_OUT)) }
  let s := { s with PORTB := u8 (s.PORTB.val ||| (1 <<< SWITCH_OUT)) }
  -- prepare watch-dog timer
  let s := { s with MCUSR := u8 (s.MCUSR.val &&& compl (1 <<< WDRF)) }
  let s := { s with WDTCR := u8 (s.WDTCR.val ||| ((1 <<< WDCE) ||| (1 <<< WDE))) }
  let s := { s with WDTCR := u8 ((1 <<< WDTIE) ||| (0 <<< WDE) ||| (0 <<< WDP3) |||
                                  (1 <<< WDP2) ||| (1 <<< WDP1) ||| (0 <<< WDP0)) }
  sei s

/-- Source lines 117-144: `ISR(WDT_vect)`, the watchdog interrupt handler. -/
def WDT_vect (s : Regs) : Regs :=
  let s := wdt_reset s
  if (s.ACSR.val &&& (1 <<< ACO)) ≠ 0 then
    { s with PORTB := u8 (s.PORTB.val ||| (1 <<< SWITCH_OUT)) }
  else
    { s with PORTB := u8 (s.PORTB.val &&& compl (1 <<< SWITCH_OUT)) }

/-! ## Environment: comparator, divider and load switch -/

/-- Source lines 122-130: the analog comparator.  Its output `ACO` is set when
the voltage on the positive pin `AIN0` is higher than the voltage on the
negative pin `AIN1`. -/
def analogComparator (ain0 ain1 : ℚ) : Bool := decide (ain1 < ain0)

/-- Source lines 68 and 133: the internal 1.1 V bandgap reference on `AIN0`. -/
def bandgap : ℚ := 11 / 10

/-- Source lines 27-37: the voltage divider.  The supply is fed to `r1`, `r2` goes
to ground and the output, wired to `AIN1`, is taken between them. -/
def divider (r1 r2 vbat : ℚ) : ℚ := vbat * r2 / (r1 + r2)

/-- Comparator output for battery voltage `vbat` behind the divider `r1`, `r2`. -/
def sense (r1 r2 vbat : ℚ) : Bool := analogComparator bandgap (divider r1 r2 vbat)

/-- The hardware presents the comparator output in the read-only `ACO` bit of `ACSR`. -/
def latchACO (aco : Bool) (s : Regs) : Regs :=
  { s with ACSR := if aco then u8 (s.ACSR.val ||| (1 <<< ACO))
                   else u8 (s.ACSR.val &&& compl (1 <<< ACO)) }

/-- One watchdog tick: the comparator output is latched, then the handler runs. -/
def tick (aco : Bool) (s : Regs) : Regs := WDT_vect (latchACO aco s)

/-- Successive ticks, one for each comparator output of the list. -/
def run (s : Regs) (readings : List Bool) : Regs :=
  readings.foldl (fun st aco => tick aco st) s

/-- Source lines 101-112: `main` runs `init` and then only sleeps; all later state
changes are the watchdog ticks. -/
def main (s : Regs) (readings : List Bool) : Regs := run (init s) readings

/-- State of the load behind the P-channel MOSFET. -/
inductive SwitchState where
  | Connected
  | Disconnected
  deriving DecidableEq, Repr

/-- Source lines 135-143: a high level on `SWITCH_OUT` turns the P-channel MOSFET
off (load disconnected), a low level turns it on. -/
def switchState (s : Regs) : SwitchState :=
  if bitOf s.PORTB SWITCH_OUT then SwitchState.Disconnected else SwitchState.Connected

/-- Switch state that corresponds to a comparator output. -/
def expectedSwitch (aco : Bool) : SwitchState :=
  if aco then SwitchState.Disconnected else SwitchState.Connected

/-- Source lines 5-25: the documented dividers, as `(R1, R2, Co)` with the
resistances in kilo-ohm and the cutoff `Co` in volt. -/
def dividerTable : List (ℚ × ℚ × ℚ) :=
  [(120, 68, 304 / 100), (330, 75, 594 / 100), (330, 47, 882 / 100), (820, 82, 121 / 10)]

/-- Watchdog prescaler selection `WDP3..WDP0` read out of a `WDTCR` value. -/
def wdtPrescaler (w : Byte) : Nat :=
  (if bitOf w WDP3 then 8 else 0) + (if bitOf w WDP2 then 4 else 0) +
  (if bitOf w WDP1 then 2 else 0) + (if bitOf w WDP0 then 1 else 0)

/-- A register file with every register cleared. -/
def clearedRegs : Regs :=
  { MCUCR := 0, TCCR0A := 0, TCCR0B := 0, ADCSRA := 0, ADCSRB := 0, ACSR := 0, DIDR0 := 0,
    DDRB := 0, PORTB := 0, MCUSR := 0, WDTCR := 0, SREG := 0, GIMSK := 0, TIMSK0 := 0,
    EECR := 0, wdtCounter := 0 }

/-- A register file with every bit of every register set and the watchdog counter running. -/
def saturatedRegs : Regs :=
  { MCUCR := 255, TCCR0A := 255, TCCR0B := 255, ADCSRA := 255, ADCSRB := 255, ACSR := 255,
    DIDR0 := 255, DDRB := 255, PORTB := 255, MCUSR := 255, WDTCR := 255, SREG := 255,
    GIMSK := 255, TIMSK0 := 255, EECR := 255, wdtCounter := 9 }

/-! ## Bit-level lemmas -/

theorem val_u8 (x : Nat) : (u8 x).val = x % 256 := rfl

theorem testBit_u8 (x i : Nat) :
    (u8 x).val.testBit i = (decide (i < 8) && x.testBit i) := by
  rw [val_u8, show (256 : Nat) = 2 ^ 8 from rfl, Nat.testBit_mod_two_pow]

theorem testBit_bit (k i : Nat) : (1 <<< k).testBit i = decide (k = i) := by
  rw [Nat.one_shiftLeft, Nat.testBit_two_pow]

theorem testBit_compl (x i : Nat) (hx : x < 65536) :
    (compl x).testBit i = (decide (i < 16) && !x.testBit i) := by
  have h2 : compl x = 2 ^ 16 - (x + 1) := by
    unfold compl
    rw [Nat.mod_eq_of_lt hx]
    omega
  rw [h2, Nat.testBit_two_pow_sub_succ (by simpa using hx)]

theorem testBit_compl_bit (k i : Nat) (hk : k < 16) :
    (compl (1 <<< k)).testBit i = (decide (i < 16) && !decide (k = i)) := by
  have h1 : (1 <<< k) < 65536 := by
    rw [Nat.one_shiftLeft]
    calc 2 ^ k < 2 ^ 16 := Nat.pow_lt_pow_right (by decide) hk
      _ = 65536 := rfl
  rw [testBit_compl _ i h1, testBit_bit]

theorem bitOf_high (r : Byte) (i : Nat) (hi : 8 ≤ i) : bitOf r i = false := by
  unfold bitOf
  apply Nat.testBit_lt_two_pow
  calc r.val < 256 := r.isLt
    _ = 2 ^ 8 := rfl
    _ ≤ 2 ^ i := Nat.pow_le_pow_right (by decide) hi

/-- Bits of `r | (1 << k)` stored back into a register. -/
theorem bitOf_set (r : Byte) (k i : Nat) (hk : k < 8) :
    bitOf (u8 (r.val ||| (1 <<< k))) i = (decide (i = k) || bitOf r i) := by
  unfold bitOf
  rw [testBit_u8, Nat.testBit_or, testBit_bit]
  by_cases h8 : i < 8
  · by_cases hik : i = k
    · subst hik; simp [h8]
    · have hki : ¬ k = i := fun h => hik h.symm
      simp [h8, hik, hki]
  · have hik : ¬ i = k := by omega
    have hr := bitOf_high r i (by omega)
    unfold bitOf at hr
    simp [h8, hik, hr]

/-- Bits of `r & ~(1 << k)` stored back into a register. -/
theorem bitOf_clear (r : Byte) (k i : Nat) (hk : k < 8) :
    bitOf (u8 (r.val &&& compl (1 <<< k))) i = (!decide (i = k) && bitOf r i) := by
  unfold bitOf
  rw [testBit_u8, Nat.testBit_and, testBit_compl_bit k i (by omega)]
  by_cases h8 : i < 8
  · have h16 : i < 16 := by omega
    by_cases hik : i = k
    · subst hik; simp [h8]
    · have hki : ¬ k = i := fun h => hik h.symm
      simp [h8, h16, hik, hki]
  · have hr := bitOf_high r i (by omega)
    unfold bitOf at hr
    simp [h8, hr]

/-- The handler's test `(r & (1 << k)) != 0` reads bit `k`. -/
theorem and_bit_ne_zero (r : Byte) (k : Nat) :
    (r.val &&& (1 <<< k)) ≠ 0 ↔ bitOf r k = true := by
  unfold bitOf
  constructor
  · intro h
    by_contra hb
    apply h
    apply Nat.eq_of_testBit_eq
    intro i
    rw [Nat.testBit_and, testBit_bit, Nat.zero_testBit]
    by_cases hki : k = i
    · subst hki; simpa using hb
    · simp [hki]
  · intro hb h
    have h2 : (r.val &&& (1 <<< k)).testBit k = true := by
      rw [Nat.testBit_and, testBit_bit, hb]; simp
    rw [h, Nat.zero_testBit] at h2
    exact Bool.false_ne_true h2

/-- Two registers with the same bits are equal. -/
theorem byte_ext (a b : Byte) (h : ∀ i, bitOf a i = bitOf b i) : a = b :=
  Fin.ext (Nat.eq_of_testBit_eq h)

/-! ## The handler, bit by bit -/

/-- Every bit of `PORTB` after the handler: bit `SWITCH_OUT` is the `ACO` bit the
handler read, every other bit is what it was. -/
theorem WDT_vect_PORTB_bit (s : Regs) (i : Nat) :
    bitOf (WDT_vect s).PORTB i =
      if i = SWITCH_OUT then bitOf s.ACSR ACO else bitOf s.PORTB i := by
  have hk : SWITCH_OUT < 8 := by decide
  by_cases hb : bitOf s.ACSR ACO = true
  · have hc : (s.ACSR.val &&& (1 <<< ACO)) ≠ 0 := (and_bit_ne_zero s.ACSR ACO).2 hb
    have hp : (WDT_vect s).PORTB = u8 (s.PORTB.val ||| (1 <<< SWITCH_OUT)) := by
      simp only [WDT_vect, wdt_reset]
      rw [if_pos hc]
    rw [hp, bitOf_set s.PORTB SWITCH_OUT i hk, hb]
    by_cases hi : i = SWITCH_OUT <;> simp [hi]
  · have hc : ¬ (s.ACSR.val &&& (1 <<< ACO)) ≠ 0 := fun h =>
      hb ((and_bit_ne_zero s.ACSR ACO).1 h)
    have hp : (WDT_vect s).PORTB = u8 (s.PORTB.val &&& compl (1 <<< SWITCH_OUT)) := by
      simp only [WDT_vect, wdt_reset]
      rw [if_neg hc]
    have hb2 : bitOf s.ACSR ACO = false := by simpa using hb
    rw [hp, bitOf_clear s.PORTB SWITCH_OUT i hk, hb2]
    by_cases hi : i = SWITCH_OUT <;> simp [hi]

/-- The handler stores into `PORTB` and restarts the watchdog counter; nothing else. -/
theorem WDT_vect_eq (s : Regs) :
    WDT_vect s = { s with PORTB := (WDT_vect s).PORTB, wdtCounter := 0 } := by
  simp only [WDT_vect, wdt_reset]
  split <;> rfl

/-- Registers the handler leaves alone. -/
theorem WDT_vect_fields (s : Regs) :
    (WDT_vect s).MCUCR = s.MCUCR ∧ (WDT_vect s).TCCR0A = s.TCCR0A ∧
    (WDT_vect s).TCCR0B = s.TCCR0B ∧ (WDT_vect s).ADCSRA = s.ADCSRA ∧
    (WDT_vect s).ADCSRB = s.ADCSRB ∧ (WDT_vect s).ACSR = s.ACSR ∧
    (WDT_vect s).DIDR0 = s.DIDR0 ∧ (WDT_vect s).DDRB = s.DDRB ∧
    (WDT_vect s).MCUSR = s.MCUSR ∧ (WDT_vect s).WDTCR = s.WDTCR ∧
    (WDT_vect s).SREG = s.SREG ∧ (WDT_vect s).GIMSK = s.GIMSK ∧
    (WDT_vect s).TIMSK0 = s.TIMSK0 ∧ (WDT_vect s).EECR = s.EECR := by
  simp only [WDT_vect, wdt_reset]
  split <;> exact ⟨rfl, rfl, rfl, rfl, rfl, rfl, rfl, rfl, rfl, rfl, rfl, rfl, rfl, rfl⟩

theorem WDT_vect_ACSR (s : Regs) : (WDT_vect s).ACSR = s.ACSR :=
  (WDT_vect_fields s).2.2.2.2.2.1

theorem WDT_vect_pin (s : Regs) :
    bitOf (WDT_vect s).PORTB SWITCH_OUT = bitOf s.ACSR ACO := by
  rw [WDT_vect_PORTB_bit, if_pos rfl]

theorem switchState_WDT_vect (s : Regs) :
    switchState (WDT_vect s) = expectedSwitch (bitOf s.ACSR ACO) := by
  unfold switchState expectedSwitch
  rw [WDT_vect_pin]

/-- The handler run twice is the handler run once. -/
theorem WDT_vect_idem (s : Regs) : WDT_vect (WDT_vect s) = WDT_vect s := by
  have hP : (WDT_vect (WDT_vect s)).PORTB = (WDT_vect s).PORTB := by
    apply byte_ext
    intro i
    rw [WDT_vect_PORTB_bit (WDT_vect s) i, WDT_vect_ACSR]
    by_cases hi : i = SWITCH_OUT
    · rw [if_pos hi, hi, WDT_vect_pin]
    · rw [if_neg hi]
  obtain ⟨h1, h2, h3, h4, h5, h6, h7, h8, h9, h10, h11, h12, h13, h14⟩ := WDT_vect_fields s
  rw [WDT_vect_eq (WDT_vect s), hP, h1, h2, h3, h4, h5, h6, h7, h8, h9, h10, h11, h12, h13, h14]
  exact (WDT_vect_eq s).symm

theorem iterate_WDT_vect (s : Regs) (n : Nat) :
    WDT_vect^[n + 1] s = WDT_vect s := by
  induction n with
  | zero => rfl
  | succ m ih => rw [Function.iterate_succ_apply', ih, WDT_vect_idem]

/-! ## The latched comparator output -/

theorem latchACO_bit (aco : Bool) (s : Regs) :
    bitOf (latchACO aco s).ACSR ACO = aco := by
  have hk : ACO < 8 := by decide
  cases aco with
  | true =>
    show bitOf (u8 (s.ACSR.val ||| (1 <<< ACO))) ACO = true
    rw [bitOf_set s.ACSR ACO ACO hk]; simp
  | false =>
    show bitOf (u8 (s.ACSR.val &&& compl (1 <<< ACO))) ACO = false
    rw [bitOf_clear s.ACSR ACO ACO hk]; simp

theorem latchACO_PORTB (aco : Bool) (s : Regs) : (latchACO aco s).PORTB = s.PORTB := rfl

theorem tick_pin (aco : Bool) (s : Regs) :
    bitOf (tick aco s).PORTB SWITCH_OUT = aco := by
  unfold tick
  rw [WDT_vect_pin, latchACO_bit]

theorem switchState_tick (aco : Bool) (s : Regs) :
    switchState (tick aco s) = expectedSwitch aco := by
  unfold tick
  rw [switchState_WDT_vect, latchACO_bit]

theorem run_append (s : Regs) (xs ys : List Bool) :
    run s (xs ++ ys) = run (run s xs) ys := by
  unfold run
  rw [List.foldl_append]

theorem run_snoc (s : Regs) (xs : List Bool) (aco : Bool) :
    run s (xs ++ [aco]) = tick aco (run s xs) := by
  rw [run_append]; rfl

theorem latchACO_of_bit (aco : Bool) (s : Regs) (h : bitOf s.ACSR ACO = aco) :
    latchACO aco s = s := by
  have hk : ACO < 8 := by decide
  have hA : (latchACO aco s).ACSR = s.ACSR := by
    apply byte_ext
    intro i
    cases aco with
    | true =>
      show bitOf (u8 (s.ACSR.val ||| (1 <<< ACO))) i = bitOf s.ACSR i
      rw [bitOf_set s.ACSR ACO i hk]
      by_cases hi : i = ACO
      · rw [hi, h]; simp
      · simp [hi]
    | false =>
      show bitOf (u8 (s.ACSR.val &&& compl (1 <<< ACO))) i = bitOf s.ACSR i
      rw [bitOf_clear s.ACSR ACO i hk]
      by_cases hi : i = ACO
      · rw [hi, h]; simp
      · simp [hi]
  have hs : latchACO aco s = { s with ACSR := (latchACO aco s).ACSR } := rfl
  rw [hs, hA]

theorem tick_twice (aco : Bool) (s : Regs) : tick aco (tick aco s) = tick aco s := by
  have h : bitOf (tick aco s).ACSR ACO = aco := by
    unfold tick
    rw [WDT_vect_ACSR, latchACO_bit]
  have h2 : tick aco (tick aco s) = WDT_vect (latchACO aco (tick aco s)) := rfl
  rw [h2, latchACO_of_bit aco _ h]
  unfold tick
  exact WDT_vect_idem _

theorem iterate_tick (aco : Bool) (s : Regs) (n : Nat) :
    (tick aco)^[n + 1] s = tick aco s := by
  induction n with
  | zero => rfl
  | succ m ih => rw [Function.iterate_succ_apply', ih, tick_twice]

/-! ## `init`, register by register -/

theorem init_MCUCR (s : Regs) :
    (init s).MCUCR =
      u8 (((u8 (s.MCUCR.val ||| (1 <<< SE))).val &&& compl ((1 <<< SM0) ||| (1 <<< SM1))) |||
        SLEEP_MODE_PWR_DOWN) := rfl

theorem init_TCCR0A (s : Regs) : (init s).TCCR0A = 0 := rfl

theorem init_TCCR0B (s : Regs) : (init s).TCCR0B = 0 := rfl

theorem init_ADCSRA (s : Regs) : (init s).ADCSRA = 0 := rfl

theorem init_ADCSRB (s : Regs) :
    (init s).ADCSRB = u8 (s.ADCSRB.val &&& compl (1 <<< ACME)) := rfl

theorem init_ACSR (s : Regs) : (init s).ACSR = u8 (1 <<< ACBG) := rfl

theorem init_DIDR0 (s : Regs) : (init s).DIDR0 = u8 ((1 <<< AIN1D) ||| (1 <<< AIN0D)) := rfl

theorem init_DDRB (s : Regs) : (init s).DDRB = u8 (s.DDRB.val ||| (1 <<< SWITCH_OUT)) := rfl

theorem init_PORTB (s : Regs) : (init s).PORTB = u8 (s.PORTB.val ||| (1 <<< SWITCH_OUT)) := rfl

theorem init_MCUSR (s : Regs) : (init s).MCUSR = u8 (s.MCUSR.val &&& compl (1 <<< WDRF)) := rfl

theorem init_WDTCR (s : Regs) :
    (init s).WDTCR = u8 ((1 <<< WDTIE) ||| (1 <<< WDP2) ||| (1 <<< WDP1)) := rfl

theorem init_SREG (s : Regs) : (init s).SREG = u8 (s.SREG.val ||| (1 <<< SREG_I)) := rfl

theorem init_untouched (s : Regs) :
    (init s).GIMSK = s.GIMSK ∧ (init s).TIMSK0 = s.TIMSK0 ∧ (init s).EECR = s.EECR ∧
    (init s).wdtCounter = s.wdtCounter := ⟨rfl, rfl, rfl, rfl⟩

/-- Every bit of `MCUCR` after the two sleep routines of `init`. -/
theorem init_MCUCR_bit (s : Regs) (i : Nat) :
    bitOf (init s).MCUCR i =
      if i = SE then true else if i = SM1 then true else if i = SM0 then false
      else bitOf s.MCUCR i := by
  have hm : ((1 <<< SM0) ||| (1 <<< SM1)) < 65536 := by decide
  rw [init_MCUCR]
  unfold bitOf SLEEP_MODE_PWR_DOWN
  rw [testBit_u8, Nat.testBit_or, Nat.testBit_and, testBit_u8, Nat.testBit_or,
    testBit_compl _ i hm, Nat.testBit_or, testBit_bit, testBit_bit, testBit_bit]
  by_cases h8 : i < 8
  · have h16 : i < 16 := by omega
    by_cases h5 : i = SE
    · subst h5; simp [SE, SM0, SM1]
    · by_cases h4 : i = SM1
      · subst h4; simp [SE, SM0, SM1]
      · by_cases h3 : i = SM0
        · subst h3; simp [SE, SM0, SM1]
        · have a5 : ¬ SE = i := fun h => h5 h.symm
          have a4 : ¬ SM1 = i := fun h => h4 h.symm
          have a3 : ¬ SM0 = i := fun h => h3 h.symm
          simp [h8, h16, h5, h4, h3, a5, a4, a3]
  · have hr := bitOf_high s.MCUCR i (by omega)
    unfold bitOf at hr
    have h5 : ¬ i = SE := by unfold SE; omega
    have h4 : ¬ i = SM1 := by unfold SM1; omega
    have h3 : ¬ i = SM0 := by unfold SM0; omega
    simp [h8, h5, h4, h3, hr]

theorem switchState_disconnected_iff (s : Regs) :
    switchState s = SwitchState.Disconnected ↔ bitOf s.PORTB SWITCH_OUT = true := by
  unfold switchState
  by_cases h : bitOf s.PORTB SWITCH_OUT = true
  · simp [h]
  · simp [h]

/-- The comparator output behind a divider of positive resistances is set exactly
below the threshold `bandgap * (r1 + r2) / r2`. -/
theorem sense_iff (r1 r2 vbat : ℚ) (h1 : 0 < r1) (h2 : 0 < r2) :
    sense r1 r2 vbat = true ↔ vbat < bandgap * (r1 + r2) / r2 := by
  have h12 : 0 < r1 + r2 := add_pos h1 h2
  unfold sense analogComparator divider
  rw [decide_eq_true_eq, div_lt_iff₀ h12, lt_div_iff₀ h2]

/-! ## Properties of the control loop -/

/-- Claim C1 (polarity correctness): for every register state, after one run of the
watchdog handler bit `SWITCH_OUT` (PB4) of `PORTB` is high if and only if the `ACO`
bit of `ACSR` is set; the load is Disconnected when `ACO` is set (battery voltage
below the reference) and Connected when it is clear.  With the comparator output
latched before the run, the pin is high exactly when the divided voltage is below
the reference and low exactly when it is at or above it. -/
theorem WDT_vect_polarity (s : Regs) :
    (bitOf (WDT_vect s).PORTB SWITCH_OUT = true ↔ bitOf s.ACSR ACO = true) ∧
    (bitOf (WDT_vect s).PORTB SWITCH_OUT = false ↔ bitOf s.ACSR ACO = false) ∧
    switchState (WDT_vect s) =
      (if bitOf s.ACSR ACO then SwitchState.Disconnected else SwitchState.Connected) ∧
    (∀ ain1 : ℚ,
      (bitOf (tick (analogComparator bandgap ain1) s).PORTB SWITCH_OUT = true ↔
        ain1 < bandgap) ∧
      (bitOf (tick (analogComparator bandgap ain1) s).PORTB SWITCH_OUT = false ↔
        bandgap ≤ ain1)) ∧
    SWITCH_OUT = 4 := by
  refine ⟨?_, ?_, ?_, ?_, rfl⟩
  · rw [WDT_vect_pin]
  · rw [WDT_vect_pin]
  · exact switchState_WDT_vect s
  · intro ain1
    rw [tick_pin]
    unfold analogComparator
    exact ⟨decide_eq_true_iff, by rw [decide_eq_false_iff_not, not_lt]⟩

/-- Claim C2 (boundary at equality): with the comparator as the handler's datasheet
comment documents it (`ACO` set exactly when `AIN0`, the 1.1 V reference, is strictly
higher than `AIN1`, the divided battery voltage), a divided battery voltage exactly
equal to the reference gives `ACO` clear, `SWITCH_OUT` driven low and the load
Connected, from every register state. -/
theorem boundary_at_equality (s : Regs) (r1 r2 vbat : ℚ)
    (heq : divider r1 r2 vbat = bandgap) :
    sense r1 r2 vbat = false ∧
    bitOf (latchACO (sense r1 r2 vbat) s).ACSR ACO = false ∧
    bitOf (tick (sense r1 r2 vbat) s).PORTB SWITCH_OUT = false ∧
    switchState (tick (sense r1 r2 vbat) s) = SwitchState.Connected := by
  have h : sense r1 r2 vbat = false := by
    unfold sense analogComparator
    rw [heq]
    exact decide_eq_false (lt_irrefl bandgap)
  refine ⟨h, ?_, ?_, ?_⟩
  · rw [latchACO_bit, h]
  · rw [tick_pin, h]
  · rw [switchState_tick, h]; rfl

/-- Witness for C2: the 1S divider (120k, 68k) at a battery voltage of 517/170 V,
where the divider output is exactly 1.1 V. -/
theorem boundary_at_equality_witness :
    divider 120 68 (517 / 170) = bandgap ∧
    sense 120 68 (517 / 170) = false ∧
    bitOf (latchACO (sense 120 68 (517 / 170)) saturatedRegs).ACSR ACO = false ∧
    bitOf (tick (sense 120 68 (517 / 170)) saturatedRegs).PORTB SWITCH_OUT = false ∧
    switchState (tick (sense 120 68 (517 / 170)) saturatedRegs) = SwitchState.Connected :=
  ⟨by unfold divider bandgap; norm_num,
   boundary_at_equality saturatedRegs 120 68 (517 / 170)
     (by unfold divider bandgap; norm_num)⟩

/-- Claim C3 (immediate reactivity, no lockout): for every prior register state and
every finite sequence of comparator outputs fed to successive handler runs after
`init`, the pin level and switch state after the k-th tick are those of the k-th
output alone (Disconnected / pin high when it is "below", Connected / pin low
otherwise). -/
theorem immediate_reactivity (s0 : Regs) (readings : List Bool) (k : Nat)
    (hk : k < readings.length) :
    bitOf (main s0 (readings.take (k + 1))).PORTB SWITCH_OUT = readings.get ⟨k, hk⟩ ∧
    switchState (main s0 (readings.take (k + 1))) =
      (if readings.get ⟨k, hk⟩ then SwitchState.Disconnected else SwitchState.Connected) ∧
    [1, 2, 3].map (fun n => switchState (main s0 ([false, true, false].take n))) =
      [SwitchState.Connected, SwitchState.Disconnected, SwitchState.Connected] := by
  have ht : readings.take (k + 1) = readings.take k ++ [readings.get ⟨k, hk⟩] := by
    rw [List.get_eq_getElem, ← List.concat_eq_append, List.take_concat_get]
  refine ⟨?_, ?_, ?_⟩
  · unfold main
    rw [ht, run_snoc]
    exact tick_pin _ _
  · unfold main
    rw [ht, run_snoc]
    exact switchState_tick _ _
  · show [switchState (tick false (init s0)),
        switchState (tick true (tick false (init s0))),
        switchState (tick false (tick true (tick false (init s0))))] = _
    rw [switchState_tick, switchState_tick, switchState_tick]
    rfl

/-- Witness for C3: the readings above, below, above from the saturated register file
leave the switch Connected, then Disconnected, then Connected again. -/
theorem immediate_reactivity_witness :
    (bitOf (main saturatedRegs ([false, true, false].take 1)).PORTB SWITCH_OUT = false ∧
      switchState (main saturatedRegs ([false, true, false].take 1)) =
        SwitchState.Connected) ∧
    (bitOf (main saturatedRegs ([false, true, false].take 2)).PORTB SWITCH_OUT = true ∧
      switchState (main saturatedRegs ([false, true, false].take 2)) =
        SwitchState.Disconnected) ∧
    (bitOf (main saturatedRegs ([false, true, false].take 3)).PORTB SWITCH_OUT = false ∧
      switchState (main saturatedRegs ([false, true, false].take 3)) =
        SwitchState.Connected) :=
  ⟨⟨(immediate_reactivity saturatedRegs [false, true, false] 0 (by decide)).1,
    (immediate_reactivity saturatedRegs [false, true, false] 0 (by decide)).2.1⟩,
   ⟨(immediate_reactivity saturatedRegs [false, true, false] 1 (by decide)).1,
    (immediate_reactivity saturatedRegs [false, true, false] 1 (by decide)).2.1⟩,
   ⟨(immediate_reactivity saturatedRegs [false, true, false] 2 (by decide)).1,
    (immediate_reactivity saturatedRegs [false, true, false] 2 (by decide)).2.1⟩⟩

/-- Claim C4 (idempotence of the tick): for every register state and every N >= 1,
N consecutive handler runs with the comparator output unchanged leave the whole
register file, `PORTB` and the `SWITCH_OUT` level as they are after one run; in
particular the handler run twice is the handler run once.  The pin is written on
every run: whatever `PORTB` held before, the level afterwards is the `ACO` bit. -/
theorem tick_idempotent (s : Regs) (N : Nat) (hN : 1 ≤ N) :
    WDT_vect (WDT_vect s) = WDT_vect s ∧
    WDT_vect^[N] s = WDT_vect s ∧
    (WDT_vect^[N] s).PORTB = (WDT_vect s).PORTB ∧
    bitOf (WDT_vect^[N] s).PORTB SWITCH_OUT = bitOf s.ACSR ACO ∧
    (∀ aco : Bool, (tick aco)^[N] s = tick aco s ∧
      bitOf ((tick aco)^[N] s).PORTB SWITCH_OUT = aco) ∧
    (∀ p : Byte, bitOf (WDT_vect { s with PORTB := p }).PORTB SWITCH_OUT = bitOf s.ACSR ACO) := by
  obtain ⟨n, rfl⟩ : ∃ n, N = n + 1 := ⟨N - 1, by omega⟩
  have h := iterate_WDT_vect s n
  refine ⟨WDT_vect_idem s, h, by rw [h], by rw [h, WDT_vect_pin], ?_, ?_⟩
  · intro aco
    rw [iterate_tick]
    exact ⟨rfl, tick_pin aco s⟩
  · intro p
    rw [WDT_vect_pin]

/-- Witness for C4: three consecutive runs from the saturated register file. -/
theorem tick_idempotent_witness :
    WDT_vect^[3] saturatedRegs = WDT_vect saturatedRegs ∧
    bitOf (WDT_vect^[3] saturatedRegs).PORTB SWITCH_OUT = true :=
  ⟨(tick_idempotent saturatedRegs 3 (by decide)).2.1,
   (tick_idempotent saturatedRegs 3 (by decide)).2.2.2.1.trans (by decide)⟩

/-- Claim C5 (self-correction, no memory): for any two register states that agree on
the `ACO` bit of `ACSR`, however `PORTB` differs between them, the `SWITCH_OUT` level
after one handler run is the same, and it is the level of that reading. -/
theorem self_correction (s t : Regs) (h : bitOf s.ACSR ACO = bitOf t.ACSR ACO) :
    bitOf (WDT_vect s).PORTB SWITCH_OUT = bitOf (WDT_vect t).PORTB SWITCH_OUT ∧
    bitOf (WDT_vect s).PORTB SWITCH_OUT = bitOf s.ACSR ACO ∧
    switchState (WDT_vect s) = switchState (WDT_vect t) ∧
    switchState (WDT_vect s) =
      (if bitOf s.ACSR ACO then SwitchState.Disconnected else SwitchState.Connected) := by
  refine ⟨?_, WDT_vect_pin s, ?_, switchState_WDT_vect s⟩
  · rw [WDT_vect_pin, WDT_vect_pin, h]
  · rw [switchState_WDT_vect, switchState_WDT_vect, h]

/-- Witness for C5: `ACO` set in both states, the pin forced low in one of them. -/
theorem self_correction_witness :
    bitOf saturatedRegs.PORTB SWITCH_OUT = true ∧
    bitOf ({ saturatedRegs with PORTB := 0 } : Regs).PORTB SWITCH_OUT = false ∧
    bitOf (WDT_vect saturatedRegs).PORTB SWITCH_OUT =
      bitOf (WDT_vect { saturatedRegs with PORTB := 0 }).PORTB SWITCH_OUT ∧
    bitOf (WDT_vect { saturatedRegs with PORTB := 0 }).PORTB SWITCH_OUT = true :=
  ⟨by decide, by decide,
   (self_correction saturatedRegs { saturatedRegs with PORTB := 0 } (by decide)).1,
   by decide⟩

/-- Claim C6 (Sample Scheduler configuration): for every prior register state, after
`init` the register `WDTCR` holds exactly `WDTIE | WDP2 | WDP1` (watchdog interrupt
enabled, `WDE` clear, prescaler bits `WDP3..WDP0 = 0110`), and no other interrupt
source is enabled by `init`: `ACIE` in `ACSR` and `ADIE` in `ADCSRA` are clear and
the remaining interrupt-mask registers are not written. -/
theorem init_watchdog_config (s : Regs) :
    (init s).WDTCR = u8 ((1 <<< WDTIE) ||| (1 <<< WDP2) ||| (1 <<< WDP1)) ∧
    (init s).WDTCR.val = 0x46 ∧
    bitOf (init s).WDTCR WDTIE = true ∧
    bitOf (init s).WDTCR WDE = false ∧
    bitOf (init s).WDTCR WDP3 = false ∧
    bitOf (init s).WDTCR WDP2 = true ∧
    bitOf (init s).WDTCR WDP1 = true ∧
    bitOf (init s).WDTCR WDP0 = false ∧
    wdtPrescaler (init s).WDTCR = 6 ∧
    bitOf (init s).ACSR ACIE = false ∧
    bitOf (init s).ADCSRA ADIE = false ∧
    (init s).GIMSK = s.GIMSK ∧ (init s).TIMSK0 = s.TIMSK0 ∧ (init s).EECR = s.EECR ∧
    bitOf (init s).SREG SREG_I = true := by
  have hI : bitOf (init s).SREG SREG_I = true := by
    rw [init_SREG, bitOf_set s.SREG SREG_I SREG_I (by decide)]; simp
  rw [init_WDTCR, init_ACSR, init_ADCSRA]
  exact ⟨rfl, by decide, by decide, by decide, by decide, by decide, by decide, by decide,
    by decide, by decide, by decide, rfl, rfl, rfl, hI⟩

/-- Claim C7 (Power Manager configuration): for every prior register state, after
`init` the registers `TCCR0A`, `TCCR0B` and `ADCSRA` are zero, the sleep-enable bit
of `MCUCR` is set and its sleep-mode bits select power-down; `set_sleep_mode` leaves
the sleep-enable bit as `sleep_enable` set it. -/
theorem init_power_config (s : Regs) :
    (init s).TCCR0A = 0 ∧ (init s).TCCR0B = 0 ∧ (init s).ADCSRA = 0 ∧
    bitOf (init s).MCUCR SE = true ∧
    bitOf (init s).MCUCR SM1 = true ∧
    bitOf (init s).MCUCR SM0 = false ∧
    (init s).MCUCR.val &&& ((1 <<< SM0) ||| (1 <<< SM1)) = SLEEP_MODE_PWR_DOWN ∧
    bitOf (sleep_enable s).MCUCR SE = true ∧
    bitOf (set_sleep_mode SLEEP_MODE_PWR_DOWN (sleep_enable s)).MCUCR SE = true ∧
    (∀ t : Regs, bitOf (set_sleep_mode SLEEP_MODE_PWR_DOWN t).MCUCR SE = bitOf t.MCUCR SE) := by
  have hSE : bitOf (init s).MCUCR SE = true := by rw [init_MCUCR_bit]; rfl
  have hSM1 : bitOf (init s).MCUCR SM1 = true := by rw [init_MCUCR_bit]; rfl
  have hSM0 : bitOf (init s).MCUCR SM0 = false := by rw [init_MCUCR_bit]; rfl
  have hm : ((1 <<< SM0) ||| (1 <<< SM1)) < 65536 := by decide
  have hkeep : ∀ t : Regs,
      bitOf (set_sleep_mode SLEEP_MODE_PWR_DOWN t).MCUCR SE = bitOf t.MCUCR SE := by
    intro t
    show bitOf (u8 ((t.MCUCR.val &&& compl ((1 <<< SM0) ||| (1 <<< SM1))) |||
      SLEEP_MODE_PWR_DOWN)) SE = bitOf t.MCUCR SE
    unfold bitOf SLEEP_MODE_PWR_DOWN
    rw [testBit_u8, Nat.testBit_or, Nat.testBit_and, testBit_compl _ SE hm, Nat.testBit_or,
      testBit_bit, testBit_bit]
    simp [SE, SM0, SM1]
  have hen : bitOf (sleep_enable s).MCUCR SE = true := by
    show bitOf (u8 (s.MCUCR.val ||| (1 <<< SE))) SE = true
    rw [bitOf_set s.MCUCR SE SE (by decide)]; simp
  refine ⟨rfl, rfl, rfl, hSE, hSM1, hSM0, ?_, hen, ?_, hkeep⟩
  · apply Nat.eq_of_testBit_eq
    intro i
    have hb := init_MCUCR_bit s i
    unfold bitOf at hb
    unfold SLEEP_MODE_PWR_DOWN
    rw [Nat.testBit_and, hb, Nat.testBit_or, testBit_bit, testBit_bit]
    by_cases h5 : i = SE
    · subst h5; simp [SE, SM0, SM1]
    · by_cases h4 : i = SM1
      · subst h4; simp [SE, SM0, SM1]
      · by_cases h3 : i = SM0
        · subst h3; simp [SE, SM0, SM1]
        · have a4 : ¬ SM1 = i := fun h => h4 h.symm
          have a3 : ¬ SM0 = i := fun h => h3 h.symm
          simp [h5, h4, h3, a4, a3]
  · rw [hkeep, hen]

/-- Claim C8 (effective cutoff voltage): for each documented divider `(R1, R2)` with
documented cutoff `Co`, with the comparator as documented, one tick disconnects the
load exactly when `Vbat < 1.1 * (R1 + R2) / R2`, and that threshold is within 0.01 V
of `Co`; `init` selects the bandgap reference, leaves the comparator enabled and
keeps `AIN1` as its negative input. -/
theorem cutoff_matches_table (r1 r2 co : ℚ) (hmem : (r1, r2, co) ∈ dividerTable)
    (s : Regs) (vbat : ℚ) :
    (sense r1 r2 vbat = true ↔ vbat < bandgap * (r1 + r2) / r2) ∧
    (bitOf (tick (sense r1 r2 vbat) s).PORTB SWITCH_OUT = true ↔
      vbat < bandgap * (r1 + r2) / r2) ∧
    (switchState (tick (sense r1 r2 vbat) s) = SwitchState.Disconnected ↔
      vbat < bandgap * (r1 + r2) / r2) ∧
    |bandgap * (r1 + r2) / r2 - co| ≤ 1 / 100 ∧
    bandgap = 11 / 10 ∧
    bitOf (init s).ACSR ACBG = true ∧
    bitOf (init s).ACSR ACD = false ∧
    bitOf (init s).ADCSRB ACME = false := by
  have hpos : 0 < r1 ∧ 0 < r2 ∧ |bandgap * (r1 + r2) / r2 - co| ≤ 1 / 100 := by
    simp only [dividerTable, List.mem_cons, List.mem_singleton, Prod.mk.injEq,
      List.not_mem_nil, or_false] at hmem
    rcases hmem with ⟨rfl, rfl, rfl⟩ | ⟨rfl, rfl, rfl⟩ | ⟨rfl, rfl, rfl⟩ | ⟨rfl, rfl, rfl⟩ <;>
      refine ⟨by norm_num, by norm_num, ?_⟩ <;>
      rw [abs_le] <;> unfold bandgap <;> constructor <;> norm_num
  obtain ⟨h1, h2, hco⟩ := hpos
  have hs := sense_iff r1 r2 vbat h1 h2
  have hACME : bitOf (init s).ADCSRB ACME = false := by
    rw [init_ADCSRB, bitOf_clear s.ADCSRB ACME ACME (by decide)]; simp
  refine ⟨hs, ?_, ?_, hco, rfl, ?_, ?_, hACME⟩
  · rw [tick_pin]; exact hs
  · rw [switchState_disconnected_iff, tick_pin]; exact hs
  · rw [init_ACSR]; decide
  · rw [init_ACSR]; decide

/-- Witness for C8: the 1S divider (120k, 68k, 3.04 V) at a battery voltage of 3 V,
which is below the threshold, so the load is disconnected. -/
theorem cutoff_matches_table_witness :
    ((120 : ℚ), (68 : ℚ), (304 / 100 : ℚ)) ∈ dividerTable ∧
    (switchState (tick (sense 120 68 3) clearedRegs) = SwitchState.Disconnected ↔
      (3 : ℚ) < bandgap * (120 + 68) / 68) ∧
    |bandgap * (120 + 68) / 68 - 304 / 100| ≤ 1 / 100 :=
  ⟨List.Mem.head _,
   (cutoff_matches_table 120 68 (304 / 100) (List.Mem.head _) clearedRegs 3).2.2.1,
   (cutoff_matches_table 120 68 (304 / 100) (List.Mem.head _) clearedRegs 3).2.2.2.1⟩

/-- Claim C9 (power-on switch state): for every prior register state, after `init`
bit `SWITCH_OUT` (PB4) is set in both `DDRB` and `PORTB`, so the load is Disconnected
whatever the comparator shows, and every other bit of `DDRB` and `PORTB` has its
prior value. -/
theorem init_switch_state (s : Regs) :
    bitOf (init s).DDRB SWITCH_OUT = true ∧
    bitOf (init s).PORTB SWITCH_OUT = true ∧
    (∀ i, bitOf (init s).DDRB i = if i = SWITCH_OUT then true else bitOf s.DDRB i) ∧
    (∀ i, bitOf (init s).PORTB i = if i = SWITCH_OUT then true else bitOf s.PORTB i) ∧
    switchState (init s) = SwitchState.Disconnected ∧
    (∀ aco : Bool, switchState (init (latchACO aco s)) = SwitchState.Disconnected) ∧
    SWITCH_OUT = 4 := by
  have hk : SWITCH_OUT < 8 := by decide
  have hD : ∀ i, bitOf (init s).DDRB i = if i = SWITCH_OUT then true else bitOf s.DDRB i := by
    intro i
    rw [init_DDRB, bitOf_set s.DDRB SWITCH_OUT i hk]
    by_cases hi : i = SWITCH_OUT <;> simp [hi]
  have hP : ∀ t : Regs, ∀ i,
      bitOf (init t).PORTB i = if i = SWITCH_OUT then true else bitOf t.PORTB i := by
    intro t i
    rw [init_PORTB, bitOf_set t.PORTB SWITCH_OUT i hk]
    by_cases hi : i = SWITCH_OUT <;> simp [hi]
  have hS : ∀ t : Regs, switchState (init t) = SwitchState.Disconnected := by
    intro t
    rw [switchState_disconnected_iff, hP t SWITCH_OUT, if_pos rfl]
  refine ⟨?_, ?_, hD, hP s, hS s, fun aco => hS _, rfl⟩
  · rw [hD SWITCH_OUT, if_pos rfl]
  · rw [hP s SWITCH_OUT, if_pos rfl]

/-- Claim C10 (frame of the tick): for every register state, one run of the watchdog
handler changes at most bit `SWITCH_OUT` (PB4) of `PORTB`; every other bit of `PORTB`
and the registers `DDRB`, `ACSR`, `ADCSRB`, `DIDR0`, `WDTCR`, `TCCR0A`, `TCCR0B`,
`ADCSRA` (and `MCUCR`, `MCUSR`, `SREG`) are left as they were. -/
theorem WDT_vect_frame (s : Regs) :
    (∀ i, bitOf (WDT_vect s).PORTB i =
      if i = SWITCH_OUT then bitOf s.ACSR ACO else bitOf s.PORTB i) ∧
    (WDT_vect s).DDRB = s.DDRB ∧
    (WDT_vect s).ACSR = s.ACSR ∧
    (WDT_vect s).ADCSRB = s.ADCSRB ∧
    (WDT_vect s).DIDR0 = s.DIDR0 ∧
    (WDT_vect s).WDTCR = s.WDTCR ∧
    (WDT_vect s).TCCR0A = s.TCCR0A ∧
    (WDT_vect s).TCCR0B = s.TCCR0B ∧
    (WDT_vect s).ADCSRA = s.ADCSRA ∧
    (WDT_vect s).MCUCR = s.MCUCR ∧
    (WDT_vect s).MCUSR = s.MCUSR ∧
    (WDT_vect s).SREG = s.SREG := by
  obtain ⟨h1, h2, h3, h4, h5, h6, h7, h8, h9, h10, h11, _, _, _⟩ := WDT_vect_fields s
  exact ⟨WDT_vect_PORTB_bit s, h8, h6, h5, h7, h10, h2, h3, h4, h1, h9, h11⟩

end Lvco
